import Mathlib

/-!
Shallow embedding of the chess move-generation engine
(`Chess_Bot/ChessEngine.py`): board representation, the `Move` value
object, `GameState` with `make_move` / `undo_move`, and the per-piece
pseudo-legal move generators.

Modelling conventions:
* a board cell is the pair of its two characters (`('-', '-')` is the
  empty cell `'--'`, `('w', 'p')` is `'wp'`, ...);
* the board is a total function `Fin 8 → Fin 8 → Cell`, mirroring the
  fixed 8×8 numpy array;
* Python indexing `board[i][j]` with `Int` indices is embedded by
  `pyGet` / `pySet`: indices in `[0, 8)` are used directly, indices in
  `[-8, 0)` wrap to `i + 8` (numpy negative indexing), and anything
  else is an `IndexError`, embedded as `none`;
* code that can raise (`IndexError` on board probes, `KeyError` on the
  piece-kind dispatch) is embedded in the `Option` monad, `none`
  standing for a raised exception.
-/

namespace ChessEngine

abbrev Cell := Char × Char

def emptyCell : Cell := ('-', '-')

abbrev Board := Fin 8 → Fin 8 → Cell

/-- Python/numpy index semantics for an 8-element axis: `0..7` index
directly, `-8..-1` wrap to `i + 8`, everything else raises. -/
def pyIdx (i : Int) : Option (Fin 8) :=
  if h : 0 ≤ i ∧ i < 8 then some ⟨i.toNat, by omega⟩
  else if h2 : -8 ≤ i ∧ i < 0 then some ⟨(i + 8).toNat, by omega⟩
  else none

/-- `board[i][j]` as an r-value. -/
def pyGet (b : Board) (i j : Int) : Option Cell :=
  (pyIdx i).bind fun r => (pyIdx j).bind fun c => some (b r c)

/-- `board[i][j] = v`. -/
def pySet (b : Board) (i j : Int) (v : Cell) : Option Board :=
  (pyIdx i).bind fun r => (pyIdx j).bind fun c =>
    some (fun x y => if x = r ∧ y = c then v else b x y)

/-- The `Move` class: four coordinates, the piece snapshots read from
the board at construction time, and the arithmetic identity key. -/
structure Move where
  start_row : Int
  start_col : Int
  end_row : Int
  end_col : Int
  piece_moved : Cell
  piece_captured : Cell
  move_ID : Int
deriving DecidableEq, Repr

/-- `Move.__init__`: reads `piece_moved` from `board[start]` and
`piece_captured` from `board[end]`, and packs the coordinates into
`move_ID`. -/
def mkMove (b : Board) (s e : Int × Int) : Option Move :=
  (pyGet b s.1 s.2).bind fun pm =>
  (pyGet b e.1 e.2).bind fun pc =>
  some ⟨s.1, s.2, e.1, e.2, pm, pc,
        s.1 * 1000 + s.2 * 100 + e.1 * 10 + e.2⟩

/-- `Move.__eq__`: compares the `move_ID` keys only. -/
def moveEq (m1 m2 : Move) : Bool := m1.move_ID == m2.move_ID

structure GameState where
  board : Board
  whiteToMove : Bool
  moveLog : List Move
deriving DecidableEq

/-- The rows of the standard initial position, exactly as assigned in
`GameState.__init__`. -/
def initRows : List (List Cell) :=
  [[('b', 'R'), ('b', 'N'), ('b', 'B'), ('b', 'Q'),
    ('b', 'K'), ('b', 'B'), ('b', 'N'), ('b', 'R')],
   List.replicate 8 ('b', 'p'),
   List.replicate 8 emptyCell,
   List.replicate 8 emptyCell,
   List.replicate 8 emptyCell,
   List.replicate 8 emptyCell,
   List.replicate 8 ('w', 'p'),
   [('w', 'R'), ('w', 'N'), ('w', 'B'), ('w', 'Q'),
    ('w', 'K'), ('w', 'B'), ('w', 'N'), ('w', 'R')]]

def initBoard : Board := fun r c => (initRows.getD r.val []).getD c.val emptyCell

/-- `GameState.__init__`: standard position, White to move, empty log. -/
def initialState : GameState := ⟨initBoard, true, []⟩

/-- `GameState.make_move`: empty the start square, put the moved piece
on the end square, append to the log, flip the turn. -/
def make_move (s : GameState) (m : Move) : Option GameState :=
  (pySet s.board m.start_row m.start_col emptyCell).bind fun b1 =>
  (pySet b1 m.end_row m.end_col m.piece_moved).bind fun b2 =>
  some ⟨b2, !s.whiteToMove, s.moveLog ++ [m]⟩

/-- `GameState.undo_move`: no-op on an empty log; otherwise pop the
last move, restore both squares from its snapshots, flip the turn. -/
def undo_move (s : GameState) : Option GameState :=
  match s.moveLog.getLast? with
  | none => some s
  | some m =>
    (pySet s.board m.start_row m.start_col m.piece_moved).bind fun b1 =>
    (pySet b1 m.end_row m.end_col m.piece_captured).bind fun b2 =>
    some ⟨b2, !s.whiteToMove, s.moveLog.dropLast⟩

/-- `moves.append(Move((r, c), (er, ec), self.board))`. -/
def pushMove (b : Board) (st en : Int × Int) (acc : List Move) :
    Option (List Move) :=
  (mkMove b st en).bind fun m => some (acc ++ [m])

/-- `get_pawn_moves`.  White: probe `board[r-1][c]` (this wraps for
`r = 0`), push one square if empty, and nested inside that, push two
squares when `r == 6` and `board[r-2][c]` is empty; then the two
diagonal captures, guarded only on the column bounds.  Black is the
mirror with `r+1` / `r == 1` / `r+2` and enemy color `'w'` (for a
black pawn on row 7 the probe of row 8 raises, giving `none`). -/
def get_pawn_moves (b : Board) (whiteToMove : Bool) (r c : Fin 8)
    (moves : List Move) : Option (List Move) :=
  if whiteToMove then
    ((pyGet b ((r : Int) - 1) (c : Int)).bind fun fwd =>
      if fwd = emptyCell then
        (pushMove b ((r : Int), (c : Int)) ((r : Int) - 1, (c : Int)) moves).bind fun a =>
        if r.val = 6 then
          (pyGet b ((r : Int) - 2) (c : Int)).bind fun fwd2 =>
          if fwd2 = emptyCell then
            pushMove b ((r : Int), (c : Int)) ((r : Int) - 2, (c : Int)) a
          else some a
        else some a
      else some moves).bind fun a1 =>
    ((if 1 ≤ c.val then
        (pyGet b ((r : Int) - 1) ((c : Int) - 1)).bind fun dl =>
        if dl.1 = 'b' then
          pushMove b ((r : Int), (c : Int)) ((r : Int) - 1, (c : Int) - 1) a1
        else some a1
      else some a1).bind fun a2 =>
    if c.val + 1 ≤ 7 then
      (pyGet b ((r : Int) - 1) ((c : Int) + 1)).bind fun dr =>
      if dr.1 = 'b' then
        pushMove b ((r : Int), (c : Int)) ((r : Int) - 1, (c : Int) + 1) a2
      else some a2
    else some a2)
  else
    ((pyGet b ((r : Int) + 1) (c : Int)).bind fun fwd =>
      if fwd = emptyCell then
        (pushMove b ((r : Int), (c : Int)) ((r : Int) + 1, (c : Int)) moves).bind fun a =>
        if r.val = 1 then
          (pyGet b ((r : Int) + 2) (c : Int)).bind fun fwd2 =>
          if fwd2 = emptyCell then
            pushMove b ((r : Int), (c : Int)) ((r : Int) + 2, (c : Int)) a
          else some a
        else some a
      else some moves).bind fun a1 =>
    ((if 1 ≤ c.val then
        (pyGet b ((r : Int) + 1) ((c : Int) - 1)).bind fun dl =>
        if dl.1 = 'w' then
          pushMove b ((r : Int), (c : Int)) ((r : Int) + 1, (c : Int) - 1) a1
        else some a1
      else some a1).bind fun a2 =>
    if c.val + 1 ≤ 7 then
      (pyGet b ((r : Int) + 1) ((c : Int) + 1)).bind fun dr =>
      if dr.1 = 'w' then
        pushMove b ((r : Int), (c : Int)) ((r : Int) + 1, (c : Int) + 1) a2
      else some a2
    else some a2)

/-- The index sequence `range(r-1, -1, -1)` paired with the fixed
column, i.e. the squares a rook at `(r, c)` probes moving up. -/
def upSqs (r c : Fin 8) : List (Fin 8 × Fin 8) :=
  (((List.finRange 8).filter (fun i => i.val < r.val)).reverse).map (fun i => (i, c))

def leftSqs (r c : Fin 8) : List (Fin 8 × Fin 8) :=
  (((List.finRange 8).filter (fun j => j.val < c.val)).reverse).map (fun j => (r, j))

def rightSqs (r c : Fin 8) : List (Fin 8 × Fin 8) :=
  ((List.finRange 8).filter (fun j => c.val < j.val)).map (fun j => (r, j))

def downSqs (r c : Fin 8) : List (Fin 8 × Fin 8) :=
  ((List.finRange 8).filter (fun i => r.val < i.val)).map (fun i => (i, c))

/-- One rook ray, exactly as each `for` loop of `get_rook_moves` runs:
an empty square is appended and the walk continues; a non-empty square
is appended when its color is `enemy`, and the loop `break`s only when
its color is `own` — after an enemy capture the walk continues. -/
def rookRay (b : Board) (st : Int × Int) (enemy own : Char) :
    List (Fin 8 × Fin 8) → List Move → Option (List Move)
  | [], acc => some acc
  | sq :: rest, acc =>
    ((if b sq.1 sq.2 = emptyCell then
        pushMove b st ((sq.1 : Int), (sq.2 : Int)) acc
      else some acc).bind fun a1 =>
    if b sq.1 sq.2 = emptyCell then rookRay b st enemy own rest a1
    else
      ((if (b sq.1 sq.2).1 = enemy then
          pushMove b st ((sq.1 : Int), (sq.2 : Int)) a1
        else some a1).bind fun a2 =>
      if (b sq.1 sq.2).1 = own then some a2
      else rookRay b st enemy own rest a2))

/-- `get_rook_moves`: the four rays in source order (up, left, right,
down), with enemy/own colors per side. -/
def get_rook_moves (b : Board) (whiteToMove : Bool) (r c : Fin 8)
    (moves : List Move) : Option (List Move) :=
  if whiteToMove then
    (rookRay b ((r : Int), (c : Int)) 'b' 'w' (upSqs r c) moves).bind fun a1 =>
    (rookRay b ((r : Int), (c : Int)) 'b' 'w' (leftSqs r c) a1).bind fun a2 =>
    (rookRay b ((r : Int), (c : Int)) 'b' 'w' (rightSqs r c) a2).bind fun a3 =>
    rookRay b ((r : Int), (c : Int)) 'b' 'w' (downSqs r c) a3
  else
    (rookRay b ((r : Int), (c : Int)) 'w' 'b' (upSqs r c) moves).bind fun a1 =>
    (rookRay b ((r : Int), (c : Int)) 'w' 'b' (leftSqs r c) a1).bind fun a2 =>
    (rookRay b ((r : Int), (c : Int)) 'w' 'b' (rightSqs r c) a2).bind fun a3 =>
    rookRay b ((r : Int), (c : Int)) 'w' 'b' (downSqs r c) a3

/-- One candidate square of `get_knight_moves`: the probed square is
appended when empty; when its color is `enemy` a move to `capDest` is
appended.  In the source `capDest` is the probed square itself in all
branches except one black branch, which is transcribed as-is below. -/
def knightProbe (b : Board) (st : Int × Int) (probe : Fin 8 × Fin 8)
    (capDest : Int × Int) (enemy : Char) (acc : List Move) :
    Option (List Move) :=
  (if b probe.1 probe.2 = emptyCell then
     pushMove b st ((probe.1 : Int), (probe.2 : Int)) acc
   else some acc).bind fun a1 =>
  if (b probe.1 probe.2).1 = enemy then pushMove b st capDest a1 else some a1

/-- `get_knight_moves`: the four column guards in source order, each
containing two row-guarded probes.  The black `(r-1, c-2)` probe
appends its capture to `(r+2, c-1)`, exactly as line 383 of the source
does. -/
def get_knight_moves (b : Board) (whiteToMove : Bool) (r c : Fin 8)
    (moves : List Move) : Option (List Move) :=
  if whiteToMove then
    (if _h : 1 ≤ c.val then
        (if _h2 : 2 ≤ r.val then
           knightProbe b ((r : Int), (c : Int))
             (⟨r.val - 2, by have := r.isLt; omega⟩, ⟨c.val - 1, by have := c.isLt; omega⟩)
             ((r : Int) - 2, (c : Int) - 1) 'b' moves
         else some moves).bind fun a =>
        (if _h3 : r.val + 2 ≤ 7 then
           knightProbe b ((r : Int), (c : Int))
             (⟨r.val + 2, by omega⟩, ⟨c.val - 1, by have := c.isLt; omega⟩)
             ((r : Int) + 2, (c : Int) - 1) 'b' a
         else some a)
      else some moves).bind fun a1 =>
    (if _h : 2 ≤ c.val then
        (if _h2 : 1 ≤ r.val then
           knightProbe b ((r : Int), (c : Int))
             (⟨r.val - 1, by have := r.isLt; omega⟩, ⟨c.val - 2, by have := c.isLt; omega⟩)
             ((r : Int) - 1, (c : Int) - 2) 'b' a1
         else some a1).bind fun a =>
        (if _h3 : r.val + 1 ≤ 7 then
           knightProbe b ((r : Int), (c : Int))
             (⟨r.val + 1, by omega⟩, ⟨c.val - 2, by have := c.isLt; omega⟩)
             ((r : Int) + 1, (c : Int) - 2) 'b' a
         else some a)
      else some a1).bind fun a2 =>
    (if _h : c.val + 1 ≤ 7 then
        (if _h2 : 2 ≤ r.val then
           knightProbe b ((r : Int), (c : Int))
             (⟨r.val - 2, by have := r.isLt; omega⟩, ⟨c.val + 1, by omega⟩)
             ((r : Int) - 2, (c : Int) + 1) 'b' a2
         else some a2).bind fun a =>
        (if _h3 : r.val + 2 ≤ 7 then
           knightProbe b ((r : Int), (c : Int))
             (⟨r.val + 2, by omega⟩, ⟨c.val + 1, by omega⟩)
             ((r : Int) + 2, (c : Int) + 1) 'b' a
         else some a)
      else some a2).bind fun a3 =>
    (if _h : c.val + 2 ≤ 7 then
        (if _h2 : 1 ≤ r.val then
           knightProbe b ((r : Int), (c : Int))
             (⟨r.val - 1, by have := r.isLt; omega⟩, ⟨c.val + 2, by omega⟩)
             ((r : Int) - 1, (c : Int) + 2) 'b' a3
         else some a3).bind fun a =>
        (if _h3 : r.val + 1 ≤ 7 then
           knightProbe b ((r : Int), (c : Int))
             (⟨r.val + 1, by omega⟩, ⟨c.val + 2, by omega⟩)
             ((r : Int) + 1, (c : Int) + 2) 'b' a
         else some a)
      else some a3)
  else
    (if _h : 1 ≤ c.val then
        (if _h2 : 2 ≤ r.val then
           knightProbe b ((r : Int), (c : Int))
             (⟨r.val - 2, by have := r.isLt; omega⟩, ⟨c.val - 1, by have := c.isLt; omega⟩)
             ((r : Int) - 2, (c : Int) - 1) 'w' moves
         else some moves).bind fun a =>
        (if _h3 : r.val + 2 ≤ 7 then
           knightProbe b ((r : Int), (c : Int))
             (⟨r.val + 2, by omega⟩, ⟨c.val - 1, by have := c.isLt; omega⟩)
             ((r : Int) + 2, (c : Int) - 1) 'w' a
         else some a)
      else some moves).bind fun a1 =>
    (if _h : 2 ≤ c.val then
        (if _h2 : 1 ≤ r.val then
           knightProbe b ((r : Int), (c : Int))
             (⟨r.val - 1, by have := r.isLt; omega⟩, ⟨c.val - 2, by have := c.isLt; omega⟩)
             ((r : Int) + 2, (c : Int) - 1) 'w' a1
         else some a1).bind fun a =>
        (if _h3 : r.val + 1 ≤ 7 then
           knightProbe b ((r : Int), (c : Int))
             (⟨r.val + 1, by omega⟩, ⟨c.val - 2, by have := c.isLt; omega⟩)
             ((r : Int) + 1, (c : Int) - 2) 'w' a
         else some a)
      else some a1).bind fun a2 =>
    (if _h : c.val + 1 ≤ 7 then
        (if _h2 : 2 ≤ r.val then
           knightProbe b ((r : Int), (c : Int))
             (⟨r.val - 2, by have := r.isLt; omega⟩, ⟨c.val + 1, by omega⟩)
             ((r : Int) - 2, (c : Int) + 1) 'w' a2
         else some a2).bind fun a =>
        (if _h3 : r.val + 2 ≤ 7 then
           knightProbe b ((r : Int), (c : Int))
             (⟨r.val + 2, by omega⟩, ⟨c.val + 1, by omega⟩)
             ((r : Int) + 2, (c : Int) + 1) 'w' a
         else some a)
      else some a2).bind fun a3 =>
    (if _h : c.val + 2 ≤ 7 then
        (if _h2 : 1 ≤ r.val then
           knightProbe b ((r : Int), (c : Int))
             (⟨r.val - 1, by have := r.isLt; omega⟩, ⟨c.val + 2, by omega⟩)
             ((r : Int) - 1, (c : Int) + 2) 'w' a3
         else some a3).bind fun a =>
        (if _h3 : r.val + 1 ≤ 7 then
           knightProbe b ((r : Int), (c : Int))
             (⟨r.val + 1, by omega⟩, ⟨c.val + 2, by omega⟩)
             ((r : Int) + 1, (c : Int) + 2) 'w' a
         else some a)
      else some a3)

/-- The multipliers `range(1, 8)` of the bishop ray walk. -/
def bishopMuls : List Nat := [1, 2, 3, 4, 5, 6, 7]

/-- One bishop ray: in-bounds empty squares are appended and the walk
continues; the first in-bounds enemy square is appended and the walk
stops; an own piece or leaving the board stops the walk. -/
def bishopRay (b : Board) (st : Int × Int) (enemy : Char) (d : Int × Int) :
    List Nat → List Move → Option (List Move)
  | [], acc => some acc
  | i :: rest, acc =>
    if h : 0 ≤ st.1 + d.1 * (i : Int) ∧ st.1 + d.1 * (i : Int) < 8 ∧
           0 ≤ st.2 + d.2 * (i : Int) ∧ st.2 + d.2 * (i : Int) < 8 then
      if b ⟨(st.1 + d.1 * (i : Int)).toNat, by omega⟩
           ⟨(st.2 + d.2 * (i : Int)).toNat, by omega⟩ = emptyCell then
        (pushMove b st (st.1 + d.1 * (i : Int), st.2 + d.2 * (i : Int)) acc).bind fun a =>
        bishopRay b st enemy d rest a
      else if (b ⟨(st.1 + d.1 * (i : Int)).toNat, by omega⟩
                 ⟨(st.2 + d.2 * (i : Int)).toNat, by omega⟩).1 = enemy then
        pushMove b st (st.1 + d.1 * (i : Int), st.2 + d.2 * (i : Int)) acc
      else some acc
    else some acc

/-- `get_bishop_moves`: the four diagonal directions in source order. -/
def get_bishop_moves (b : Board) (whiteToMove : Bool) (r c : Fin 8)
    (moves : List Move) : Option (List Move) :=
  (bishopRay b ((r : Int), (c : Int)) (if whiteToMove then 'b' else 'w')
      (-1, -1) bishopMuls moves).bind fun a1 =>
  (bishopRay b ((r : Int), (c : Int)) (if whiteToMove then 'b' else 'w')
      (-1, 1) bishopMuls a1).bind fun a2 =>
  (bishopRay b ((r : Int), (c : Int)) (if whiteToMove then 'b' else 'w')
      (1, -1) bishopMuls a2).bind fun a3 =>
  bishopRay b ((r : Int), (c : Int)) (if whiteToMove then 'b' else 'w')
      (1, 1) bishopMuls a3

/-- `get_queen_moves`: rook moves then bishop moves from the square. -/
def get_queen_moves (b : Board) (whiteToMove : Bool) (r c : Fin 8)
    (moves : List Move) : Option (List Move) :=
  (get_rook_moves b whiteToMove r c moves).bind fun a =>
  get_bishop_moves b whiteToMove r c a

/-- The 8 king offsets in source order. -/
def kingOffsets : List (Int × Int) :=
  [(-1, -1), (-1, 0), (-1, 1), (0, -1), (0, 1), (1, -1), (1, 0), (1, 1)]

/-- The king loop: every in-bounds offset square whose first character
is not the ally color is appended; no early exit. -/
def kingFold (b : Board) (st : Int × Int) (ally : Char) :
    List (Int × Int) → List Move → Option (List Move)
  | [], acc => some acc
  | d :: rest, acc =>
    ((if h : 0 ≤ st.1 + d.1 ∧ st.1 + d.1 < 8 ∧
             0 ≤ st.2 + d.2 ∧ st.2 + d.2 < 8 then
        if (b ⟨(st.1 + d.1).toNat, by omega⟩ ⟨(st.2 + d.2).toNat, by omega⟩).1 ≠ ally then
          pushMove b st (st.1 + d.1, st.2 + d.2) acc
        else some acc
      else some acc).bind fun a => kingFold b st ally rest a)

def get_king_moves (b : Board) (whiteToMove : Bool) (r c : Fin 8)
    (moves : List Move) : Option (List Move) :=
  kingFold b ((r : Int), (c : Int)) (if whiteToMove then 'w' else 'b')
    kingOffsets moves

/-- The `move_functions` dispatch dictionary: a lookup outside the six
recognized kind characters raises `KeyError`, embedded as `none`. -/
def moveFunction (b : Board) (w : Bool) (k : Char) :
    Option (Fin 8 → Fin 8 → List Move → Option (List Move)) :=
  match k with
  | 'p' => some (get_pawn_moves b w)
  | 'R' => some (get_rook_moves b w)
  | 'N' => some (get_knight_moves b w)
  | 'B' => some (get_bishop_moves b w)
  | 'Q' => some (get_queen_moves b w)
  | 'K' => some (get_king_moves b w)
  | _ => none

/-- The body of the scan of `get_all_possible_moves` for one square:
if the square's color character matches the side to move, dispatch on
its kind character and let the generator extend the shared list. -/
def dispatchSquare (b : Board) (w : Bool) (r c : Fin 8)
    (moves : List Move) : Option (List Move) :=
  if ((b r c).1 = 'w' ∧ w = true) ∨ ((b r c).1 = 'b' ∧ w = false) then
    match moveFunction b w (b r c).2 with
    | some f => f r c moves
    | none => none
  else some moves

/-- All 64 squares in row-major order, as the nested `for r` / `for c`
loops visit them. -/
def squaresRM : List (Fin 8 × Fin 8) :=
  (List.finRange 8).flatMap fun r => (List.finRange 8).map fun c => (r, c)

def scanFold (b : Board) (w : Bool) :
    List (Fin 8 × Fin 8) → List Move → Option (List Move)
  | [], acc => some acc
  | sq :: rest, acc =>
    (dispatchSquare b w sq.1 sq.2 acc).bind fun a => scanFold b w rest a

/-- `get_all_possible_moves`: row-major scan of the whole board. -/
def get_all_possible_moves (s : GameState) : Option (List Move) :=
  scanFold s.board s.whiteToMove squaresRM []

/-- `get_valid_moves`: returns `get_all_possible_moves()` unchanged. -/
def get_valid_moves (s : GameState) : Option (List Move) :=
  get_all_possible_moves s

/-- One user-driven step, as the render/input collaborator performs
it: construct `Move(start, end, board)`, test membership in
`get_valid_moves()` (via `Move.__eq__`-compatible structural equality,
the coordinates and snapshots all coming from the same board), then
`make_move`. -/
def playMove (s : GameState) (q : Int × Int × Int × Int) : Option GameState :=
  (get_valid_moves s).bind fun l =>
  (mkMove s.board (q.1, q.2.1) (q.2.2.1, q.2.2.2)).bind fun m =>
  if m ∈ l then make_move s m else none

def playMoves (s : GameState) : List (Int × Int × Int × Int) → Option GameState
  | [] => some s
  | q :: rest => (playMove s q).bind fun s2 => playMoves s2 rest

/-- States reachable from the initial state through `make_move` on
moves drawn from `get_valid_moves` of the current state, and through
`undo_move`. -/
inductive Reachable : GameState → Prop where
  | init : Reachable initialState
  | step_make {s : GameState} {l : List Move} {m : Move} {s2 : GameState} :
      Reachable s → get_valid_moves s = some l → m ∈ l →
      make_move s m = some s2 → Reachable s2
  | step_undo {s s2 : GameState} :
      Reachable s → undo_move s = some s2 → Reachable s2

/-- `m` carries exactly the data `Move.__init__` reads from board `b`
at `m`'s own coordinates. -/
def FromBoard (b : Board) (m : Move) : Prop :=
  mkMove b (m.start_row, m.start_col) (m.end_row, m.end_col) = some m

instance (b : Board) (m : Move) : Decidable (FromBoard b m) := by
  unfold FromBoard; infer_instance

/-- The `move_ID` of `m` is the arithmetic packing of its coordinates,
as `Move.__init__` always computes it. -/
def MoveWF (m : Move) : Prop :=
  m.move_ID = m.start_row * 1000 + m.start_col * 100 + m.end_row * 10 + m.end_col

instance (m : Move) : Decidable (MoveWF m) := by
  unfold MoveWF; infer_instance

/-- The specification's description of `get_valid_moves`, written from
its words: visit all 64 squares in row-major order; for each square
occupied by a piece whose color matches the side to move, run the
generator keyed by the piece's kind on that square and append its
output to the result; no check-legality filtering of any kind. -/
def get_valid_moves_spec (s : GameState) : Option (List Move) :=
  List.foldlM (fun acc sq =>
    if ((s.board sq.1 sq.2).1 = 'w' ∧ s.whiteToMove = true) ∨
       ((s.board sq.1 sq.2).1 = 'b' ∧ s.whiteToMove = false) then
      (match moveFunction s.board s.whiteToMove (s.board sq.1 sq.2).2 with
       | some f => f sq.1 sq.2 []
       | none => none).bind fun out => some (acc ++ out)
    else some acc) [] squaresRM

/-- The spec's rook example: white rook at (4,4), enemy pawn at (4,6),
own pawn at (2,4), otherwise empty. -/
def exampleRookBoard : Board := fun r c =>
  if r.val = 4 ∧ c.val = 4 then ('w', 'R')
  else if r.val = 4 ∧ c.val = 6 then ('b', 'p')
  else if r.val = 2 ∧ c.val = 4 then ('w', 'p')
  else emptyCell

/-- Black knight at (4,4) with a white (enemy) pawn on the probed
offset square (3,2), otherwise empty. -/
def exampleKnightBoard : Board := fun r c =>
  if r.val = 4 ∧ c.val = 4 then ('b', 'N')
  else if r.val = 3 ∧ c.val = 2 then ('w', 'p')
  else emptyCell

/-- A 12-ply game: White marches the a-pawn to (0,0) via two captures
(b7 pawn, a8 rook), then lifts the a1 rook to (6,0), while Black
shuffles the g8 knight back and forth. -/
def wrapSeq : List (Int × Int × Int × Int) :=
  [(6, 0, 4, 0), (0, 6, 2, 5), (4, 0, 3, 0), (2, 5, 0, 6),
   (3, 0, 2, 0), (0, 6, 2, 5), (2, 0, 1, 1), (2, 5, 0, 6),
   (1, 1, 0, 0), (0, 6, 2, 5), (7, 0, 6, 0), (2, 5, 0, 6)]

/-- The state after `wrapSeq`: a white pawn sits on row 0 at (0,0) and
the square (7,0) behind it (in wrapped indexing) is empty. -/
def wrapState : GameState := (playMoves initialState wrapSeq).getD initialState

/-- The move the pawn generator produces for the white pawn at (0,0)
of `wrapState`: its end row is `-1`, and both snapshots were read with
wrapped indexing. -/
def wrapMove : Move := ⟨0, 0, -1, 0, ('w', 'p'), ('-', '-'), -10⟩

/-- The concrete single pawn push (6,0)→(5,0) of the initial
position. -/
def pawnA3Move : Move := ⟨6, 0, 5, 0, ('w', 'p'), ('-', '-'), 6050⟩

/-- `Move((6,4), (4,4), board)` built over the initial board. -/
def mvSameCoordsA : Move := ⟨6, 4, 4, 4, ('w', 'p'), ('-', '-'), 6444⟩

/-- `Move((6,4), (4,4), board)` built over `exampleKnightBoard`: same
coordinates, different piece snapshots. -/
def mvSameCoordsB : Move := ⟨6, 4, 4, 4, ('-', '-'), ('b', 'N'), 6444⟩

/-- A generator step, as a function of the shared `moves` list: it
only appends, and every appended move was built by `Move.__init__`
from the board `b`. -/
def GenOK (b : Board) (f : List Move → Option (List Move)) : Prop :=
  (∀ acc, f acc = (f []).map (fun out => acc ++ out)) ∧
  (∀ acc out m, f acc = some out → m ∈ out → m ∈ acc ∨ FromBoard b m)

/-! ### Structural lemmas about the generators -/

lemma genOK_some {b : Board} : GenOK b (fun acc => some acc) := by
  constructor
  · intro acc; simp
  · intro acc out m h hm
    obtain rfl : acc = out := by simpa using h
    exact Or.inl hm

lemma genOK_none {b : Board} : GenOK b (fun _ => none) := by
  constructor
  · intro acc; simp
  · intro acc out m h hm; simp at h

lemma mkMove_fromBoard {b : Board} {s e : Int × Int} {m : Move}
    (h : mkMove b s e = some m) : FromBoard b m := by
  unfold mkMove at h
  cases hpm : pyGet b s.1 s.2 with
  | none => rw [hpm] at h; simp at h
  | some pm =>
    cases hpc : pyGet b e.1 e.2 with
    | none => rw [hpm, hpc] at h; simp at h
    | some pc =>
      rw [hpm, hpc] at h
      simp only [Option.some_bind, Option.some_inj] at h
      subst h
      unfold FromBoard mkMove
      simp [hpm, hpc]

lemma genOK_push {b : Board} (st en : Int × Int) :
    GenOK b (pushMove b st en) := by
  constructor
  · intro acc
    unfold pushMove
    cases h : mkMove b st en <;> simp [h]
  · intro acc out m hout hm
    unfold pushMove at hout
    cases h : mkMove b st en with
    | none => rw [h] at hout; simp at hout
    | some m0 =>
      rw [h] at hout
      simp only [Option.some_bind, Option.some_inj] at hout
      subst hout
      rcases List.mem_append.mp hm with h1 | h2
      · exact Or.inl h1
      · simp only [List.mem_singleton] at h2
        subst h2
        exact Or.inr (mkMove_fromBoard h)

lemma genOK_bind {b : Board} {f g : List Move → Option (List Move)}
    (hf : GenOK b f) (hg : GenOK b g) :
    GenOK b (fun acc => (f acc).bind g) := by
  obtain ⟨hf1, hf2⟩ := hf
  obtain ⟨hg1, hg2⟩ := hg
  constructor
  · intro acc
    simp only []
    rw [hf1 acc]
    cases h0 : f [] with
    | none => simp
    | some o =>
      simp only [Option.map_some', Option.some_bind]
      rw [hg1 o, hg1 (acc ++ o)]
      cases hg0 : g [] <;> simp [List.append_assoc]
  · intro acc out m hout hm
    simp only [] at hout
    cases h0 : f acc with
    | none => rw [h0] at hout; simp at hout
    | some mid =>
      rw [h0] at hout
      simp only [Option.some_bind] at hout
      rcases hg2 mid out m hout hm with h1 | h2
      · rcases hf2 acc mid m h0 h1 with ha | hb
        · exact Or.inl ha
        · exact Or.inr hb
      · exact Or.inr h2

lemma genOK_ite {b : Board} {P : Prop} [Decidable P]
    {f g : List Move → Option (List Move)}
    (hf : GenOK b f) (hg : GenOK b g) :
    GenOK b (fun acc => if P then f acc else g acc) := by
  by_cases h : P
  · simpa [h] using hf
  · simpa [h] using hg

lemma genOK_dite {b : Board} {P : Prop} [Decidable P]
    {f : P → List Move → Option (List Move)}
    {g : ¬P → List Move → Option (List Move)}
    (hf : ∀ h, GenOK b (f h)) (hg : ∀ h, GenOK b (g h)) :
    GenOK b (fun acc => dite P (fun h => f h acc) (fun h => g h acc)) := by
  by_cases h : P
  · simpa [h] using hf h
  · simpa [h] using hg h

lemma genOK_optBind {b : Board} {α : Type} (o : Option α)
    {k : α → List Move → Option (List Move)}
    (hk : ∀ x, GenOK b (k x)) :
    GenOK b (fun acc => o.bind fun x => k x acc) := by
  cases o with
  | none => exact genOK_none
  | some x => exact hk x

lemma genOK_knightProbe {b : Board} (st : Int × Int) (probe : Fin 8 × Fin 8)
    (capDest : Int × Int) (enemy : Char) :
    GenOK b (knightProbe b st probe capDest enemy) := by
  unfold knightProbe
  exact genOK_bind (genOK_ite (genOK_push _ _) genOK_some)
    (genOK_ite (genOK_push _ _) genOK_some)

lemma genOK_pawn {b : Board} (w : Bool) (r c : Fin 8) :
    GenOK b (get_pawn_moves b w r c) := by
  unfold get_pawn_moves
  cases w <;>
    simp only [Bool.false_eq_true, if_false, if_true] <;>
    · apply genOK_bind
      · apply genOK_optBind; intro fwd
        apply genOK_ite
        · apply genOK_bind
          · exact genOK_push _ _
          · apply genOK_ite
            · apply genOK_optBind; intro fwd2
              exact genOK_ite (genOK_push _ _) genOK_some
            · exact genOK_some
        · exact genOK_some
      · apply genOK_bind
        · apply genOK_ite
          · apply genOK_optBind; intro dl
            exact genOK_ite (genOK_push _ _) genOK_some
          · exact genOK_some
        · apply genOK_ite
          · apply genOK_optBind; intro dr
            exact genOK_ite (genOK_push _ _) genOK_some
          · exact genOK_some

lemma genOK_rookRay {b : Board} (st : Int × Int) (enemy own : Char)
    (sqs : List (Fin 8 × Fin 8)) :
    GenOK b (fun acc => rookRay b st enemy own sqs acc) := by
  induction sqs with
  | nil => exact genOK_some
  | cons sq rest ih =>
    simp only [rookRay]
    apply genOK_bind
    · exact genOK_ite (genOK_push _ _) genOK_some
    · apply genOK_ite
      · exact ih
      · apply genOK_bind
        · exact genOK_ite (genOK_push _ _) genOK_some
        · exact genOK_ite genOK_some ih

lemma genOK_rook {b : Board} (w : Bool) (r c : Fin 8) :
    GenOK b (get_rook_moves b w r c) := by
  unfold get_rook_moves
  cases w <;>
    simp only [Bool.false_eq_true, if_false, if_true] <;>
    · apply genOK_bind (genOK_rookRay _ _ _ _)
      apply genOK_bind (genOK_rookRay _ _ _ _)
      apply genOK_bind (genOK_rookRay _ _ _ _)
      exact genOK_rookRay _ _ _ _

lemma genOK_bishopRay {b : Board} (st : Int × Int) (enemy : Char)
    (d : Int × Int) (muls : List Nat) :
    GenOK b (fun acc => bishopRay b st enemy d muls acc) := by
  induction muls with
  | nil => exact genOK_some
  | cons i rest ih =>
    simp only [bishopRay]
    apply genOK_dite
    · intro h
      apply genOK_ite
      · exact genOK_bind (genOK_push _ _) ih
      · exact genOK_ite (genOK_push _ _) genOK_some
    · intro h
      exact genOK_some

lemma genOK_bishop {b : Board} (w : Bool) (r c : Fin 8) :
    GenOK b (get_bishop_moves b w r c) := by
  unfold get_bishop_moves
  apply genOK_bind (genOK_bishopRay _ _ _ _)
  apply genOK_bind (genOK_bishopRay _ _ _ _)
  apply genOK_bind (genOK_bishopRay _ _ _ _)
  exact genOK_bishopRay _ _ _ _

lemma genOK_queen {b : Board} (w : Bool) (r c : Fin 8) :
    GenOK b (get_queen_moves b w r c) := by
  unfold get_queen_moves
  exact genOK_bind (genOK_rook w r c) (genOK_bishop w r c)

lemma genOK_kingFold {b : Board} (st : Int × Int) (ally : Char)
    (offs : List (Int × Int)) :
    GenOK b (fun acc => kingFold b st ally offs acc) := by
  induction offs with
  | nil => exact genOK_some
  | cons d rest ih =>
    simp only [kingFold]
    apply genOK_bind
    · apply genOK_dite
      · intro h
        exact genOK_ite (genOK_push _ _) genOK_some
      · intro h
        exact genOK_some
    · exact ih

lemma genOK_king {b : Board} (w : Bool) (r c : Fin 8) :
    GenOK b (get_king_moves b w r c) := by
  unfold get_king_moves
  exact genOK_kingFold _ _ _

lemma genOK_knight {b : Board} (w : Bool) (r c : Fin 8) :
    GenOK b (get_knight_moves b w r c) := by
  unfold get_knight_moves
  cases w <;>
    simp only [Bool.false_eq_true, if_false, if_true] <;>
    · apply genOK_bind
      · apply genOK_dite
        · intro h
          apply genOK_bind
          · exact genOK_dite (fun h2 => genOK_knightProbe _ _ _ _) (fun h2 => genOK_some)
          · exact genOK_dite (fun h3 => genOK_knightProbe _ _ _ _) (fun h3 => genOK_some)
        · intro h; exact genOK_some
      · apply genOK_bind
        · apply genOK_dite
          · intro h
            apply genOK_bind
            · exact genOK_dite (fun h2 => genOK_knightProbe _ _ _ _) (fun h2 => genOK_some)
            · exact genOK_dite (fun h3 => genOK_knightProbe _ _ _ _) (fun h3 => genOK_some)
          · intro h; exact genOK_some
        · apply genOK_bind
          · apply genOK_dite
            · intro h
              apply genOK_bind
              · exact genOK_dite (fun h2 => genOK_knightProbe _ _ _ _) (fun h2 => genOK_some)
              · exact genOK_dite (fun h3 => genOK_knightProbe _ _ _ _) (fun h3 => genOK_some)
            · intro h; exact genOK_some
          · apply genOK_dite
            · intro h
              apply genOK_bind
              · exact genOK_dite (fun h2 => genOK_knightProbe _ _ _ _) (fun h2 => genOK_some)
              · exact genOK_dite (fun h3 => genOK_knightProbe _ _ _ _) (fun h3 => genOK_some)
            · intro h; exact genOK_some

lemma genOK_moveFunction {b : Board} {w : Bool} {k : Char}
    {f : Fin 8 → Fin 8 → List Move → Option (List Move)}
    (h : moveFunction b w k = some f) (r c : Fin 8) :
    GenOK b (f r c) := by
  unfold moveFunction at h
  split at h <;>
    first
      | exact Option.noConfusion h
      | (obtain rfl := (Option.some.inj h).symm
         first
           | exact genOK_pawn w r c
           | exact genOK_rook w r c
           | exact genOK_knight w r c
           | exact genOK_bishop w r c
           | exact genOK_queen w r c
           | exact genOK_king w r c)

lemma genOK_dispatch {b : Board} (w : Bool) (r c : Fin 8) :
    GenOK b (dispatchSquare b w r c) := by
  unfold dispatchSquare
  apply genOK_ite
  · cases h : moveFunction b w (b r c).2 with
    | none => simp only [h]; exact genOK_none
    | some f => simp only [h]; exact genOK_moveFunction h r c
  · exact genOK_some

lemma genOK_scanFold {b : Board} (w : Bool) (sqs : List (Fin 8 × Fin 8)) :
    GenOK b (fun acc => scanFold b w sqs acc) := by
  induction sqs with
  | nil => exact genOK_some
  | cons sq rest ih =>
    simp only [scanFold]
    exact genOK_bind (genOK_dispatch w sq.1 sq.2) ih

lemma fromBoard_components {b : Board} {m : Move} (h : FromBoard b m) :
    ∃ (i j i2 j2 : Fin 8), pyIdx m.start_row = some i ∧ pyIdx m.start_col = some j ∧
      pyIdx m.end_row = some i2 ∧ pyIdx m.end_col = some j2 ∧
      m.piece_moved = b i j ∧ m.piece_captured = b i2 j2 := by
  unfold FromBoard mkMove pyGet at h
  dsimp only at h
  cases h1 : pyIdx m.start_row with
  | none => rw [h1] at h; simp at h
  | some i =>
    rw [h1] at h
    simp only [Option.some_bind] at h
    cases h2 : pyIdx m.start_col with
    | none => rw [h2] at h; simp at h
    | some j =>
      rw [h2] at h
      simp only [Option.some_bind] at h
      cases h3 : pyIdx m.end_row with
      | none => rw [h3] at h; simp at h
      | some i2 =>
        rw [h3] at h
        simp only [Option.some_bind] at h
        cases h4 : pyIdx m.end_col with
        | none => rw [h4] at h; simp at h
        | some j2 =>
          rw [h4] at h
          simp only [Option.some_bind, Option.some_inj] at h
          refine ⟨i, j, i2, j2, rfl, rfl, rfl, rfl, ?_, ?_⟩
          · exact (congrArg Move.piece_moved h).symm
          · exact (congrArg Move.piece_captured h).symm

lemma make_undo_inverse {s : GameState} {m : Move} (h : FromBoard s.board m) :
    ∃ s2, make_move s m = some s2 ∧ undo_move s2 = some s := by
  obtain ⟨i, j, i2, j2, h1, h2, h3, h4, h5, h6⟩ := fromBoard_components h
  obtain ⟨sb, sw, sl⟩ := s
  simp only [] at h5 h6
  simp only [make_move, pySet, h1, h2, h3, h4, Option.some_bind]
  refine ⟨_, rfl, ?_⟩
  simp only [undo_move, List.getLast?_concat, pySet, h1, h2, h3, h4,
    Option.some_bind, List.dropLast_concat]
  simp only [Option.some_inj, GameState.mk.injEq, Bool.not_not]
  refine ⟨?_, trivial, trivial⟩
  funext x y
  by_cases e2 : x = i2 ∧ y = j2
  · simp only [if_pos e2]
    rw [h6, e2.1, e2.2]
  · simp only [if_neg e2]
    by_cases e1 : x = i ∧ y = j
    · simp only [if_pos e1]
      rw [h5, e1.1, e1.2]
    · simp only [if_neg e1]

lemma make_move_fields {s : GameState} {m : Move} {s2 : GameState}
    (h : make_move s m = some s2) :
    s2.whiteToMove = !s.whiteToMove ∧ s2.moveLog = s.moveLog ++ [m] := by
  unfold make_move at h
  cases hp1 : pySet s.board m.start_row m.start_col emptyCell with
  | none => rw [hp1] at h; simp at h
  | some b1 =>
    rw [hp1] at h
    simp only [Option.some_bind] at h
    cases hp2 : pySet b1 m.end_row m.end_col m.piece_moved with
    | none => rw [hp2] at h; simp at h
    | some b2 =>
      rw [hp2] at h
      simp only [Option.some_bind, Option.some_inj] at h
      subst h
      exact ⟨rfl, rfl⟩

lemma undo_move_cases {s s2 : GameState} (h : undo_move s = some s2) :
    (s.moveLog = [] ∧ s2 = s) ∨
    (s.moveLog ≠ [] ∧ s2.whiteToMove = !s.whiteToMove ∧
       s2.moveLog = s.moveLog.dropLast) := by
  unfold undo_move at h
  split at h
  · rename_i hl
    left
    exact ⟨List.getLast?_eq_none_iff.mp hl, (Option.some.inj h).symm⟩
  · rename_i m hl
    right
    have hne : s.moveLog ≠ [] := by
      intro he
      rw [he] at hl
      simp at hl
    cases hp1 : pySet s.board m.start_row m.start_col m.piece_moved with
    | none => rw [hp1] at h; simp at h
    | some b1 =>
      rw [hp1] at h
      simp only [Option.some_bind] at h
      cases hp2 : pySet b1 m.end_row m.end_col m.piece_captured with
      | none => rw [hp2] at h; simp at h
      | some b2 =>
        rw [hp2] at h
        simp only [Option.some_bind, Option.some_inj] at h
        subst h
        exact ⟨hne, rfl, rfl⟩

lemma reachable_playMove {s s2 : GameState} {q : Int × Int × Int × Int}
    (hr : Reachable s) (h : playMove s q = some s2) : Reachable s2 := by
  unfold playMove at h
  cases hl : get_valid_moves s with
  | none => rw [hl] at h; simp at h
  | some l =>
    rw [hl] at h
    simp only [Option.some_bind] at h
    cases hm : mkMove s.board (q.1, q.2.1) (q.2.2.1, q.2.2.2) with
    | none => rw [hm] at h; simp at h
    | some m =>
      rw [hm] at h
      simp only [Option.some_bind] at h
      by_cases hmem : m ∈ l
      · rw [if_pos hmem] at h
        exact Reachable.step_make hr hl hmem h
      · rw [if_neg hmem] at h
        simp at h

lemma reachable_playMoves {s s2 : GameState} {qs : List (Int × Int × Int × Int)}
    (hr : Reachable s) (h : playMoves s qs = some s2) : Reachable s2 := by
  induction qs generalizing s with
  | nil =>
    simp only [playMoves, Option.some_inj] at h
    rwa [← h]
  | cons q rest ih =>
    simp only [playMoves] at h
    cases hq : playMove s q with
    | none => rw [hq] at h; simp at h
    | some smid =>
      rw [hq] at h
      simp only [Option.some_bind] at h
      exact ih (reachable_playMove hr hq) h

lemma dispatch_spec_step {b : Board} {w : Bool} (r c : Fin 8) (acc : List Move) :
    dispatchSquare b w r c acc =
      if ((b r c).1 = 'w' ∧ w = true) ∨ ((b r c).1 = 'b' ∧ w = false) then
        (match moveFunction b w (b r c).2 with
         | some f => f r c []
         | none => none).bind fun out => some (acc ++ out)
      else some acc := by
  unfold dispatchSquare
  by_cases hc : ((b r c).1 = 'w' ∧ w = true) ∨ ((b r c).1 = 'b' ∧ w = false)
  · simp only [if_pos hc]
    cases h : moveFunction b w (b r c).2 with
    | none => simp only [h, Option.none_bind]
    | some f =>
      simp only [h]
      rw [(genOK_moveFunction h r c).1 acc]
      cases hf0 : f r c [] <;> simp
  · simp only [if_neg hc]

lemma scanFold_eq_spec {b : Board} {w : Bool}
    (sqs : List (Fin 8 × Fin 8)) (acc : List Move) :
    scanFold b w sqs acc =
      List.foldlM (fun acc sq =>
        if ((b sq.1 sq.2).1 = 'w' ∧ w = true) ∨
           ((b sq.1 sq.2).1 = 'b' ∧ w = false) then
          (match moveFunction b w (b sq.1 sq.2).2 with
           | some f => f sq.1 sq.2 []
           | none => none).bind fun out => some (acc ++ out)
        else some acc) acc sqs := by
  induction sqs generalizing acc with
  | nil => rfl
  | cons sq rest ih =>
    simp only [scanFold, List.foldlM_cons]
    rw [dispatch_spec_step]
    cases hs : (if ((b sq.1 sq.2).1 = 'w' ∧ w = true) ∨
           ((b sq.1 sq.2).1 = 'b' ∧ w = false) then
          (match moveFunction b w (b sq.1 sq.2).2 with
           | some f => f sq.1 sq.2 []
           | none => none).bind fun out => some (acc ++ out)
        else some acc) with
    | none => rfl
    | some a =>
      simp only [Option.some_bind]
      show scanFold b w rest a = _
      rw [ih a]
      rfl

/-- C6: `get_valid_moves` returns exactly the row-major scan the spec
describes: for each square whose piece color matches the side to move,
the generator keyed by the piece kind is run and its output appended,
with no check-legality filtering; the result (including its order) is
a deterministic function of the state, here proved equal to the
spec-worded definition `get_valid_moves_spec`. -/
theorem get_valid_moves_eq_spec_scan (s : GameState) :
    get_valid_moves s = get_valid_moves_spec s :=
  scanFold_eq_spec squaresRM []

/-- C2: for every state `s` (in particular every reachable one) and
every move `m` of `get_valid_moves s`, `make_move` succeeds and
`undo_move` then restores the complete prior state — board,
`whiteToMove`, and move log; applied to the last move of any chain,
this is exactly LIFO undo at arbitrary depth. -/
theorem make_then_undo_restores (s : GameState) (l : List Move) (m : Move)
    (hl : get_valid_moves s = some l) (hm : m ∈ l) :
    ∃ s2, make_move s m = some s2 ∧ undo_move s2 = some s := by
  have hfb : FromBoard s.board m := by
    have hcl := (@genOK_scanFold s.board s.whiteToMove squaresRM).2 [] l m hl hm
    rcases hcl with h | h
    · simp at h
    · exact h
  exact make_undo_inverse hfb

/-- C2 witness: applied at the initial state to the pawn push
(6,0)→(5,0). -/
theorem make_then_undo_restores_witness :
    ∃ s2, make_move initialState pawnA3Move = some s2 ∧
      undo_move s2 = some initialState :=
  make_then_undo_restores initialState
    ((get_valid_moves initialState).getD []) pawnA3Move (by rfl) (by decide)

/-- C8: `undo_move` on a state with an empty move log is a silent
no-op: it succeeds and returns the state unchanged (same board, same
side to move, same log). -/
theorem undo_on_empty_log_noop (s : GameState) (h : s.moveLog = []) :
    undo_move s = some s := by
  unfold undo_move
  rw [h]
  rfl

/-- C8 witness: the freshly constructed state. -/
theorem undo_on_empty_log_noop_witness :
    undo_move initialState = some initialState :=
  undo_on_empty_log_noop initialState rfl

/-- C9: in every state reachable through `make_move` / `undo_move`
from the initial state, the side to move is White exactly when the
move log holds an even number of moves. -/
theorem turn_parity_invariant (s : GameState) (h : Reachable s) :
    s.whiteToMove = true ↔ s.moveLog.length % 2 = 0 := by
  induction h with
  | init => simp [initialState]
  | step_make hr hl hm hmk ih =>
    obtain ⟨hw, hlog⟩ := make_move_fields hmk
    rw [hw, hlog, List.length_append]
    rename_i s l m s2
    cases hsw : s.whiteToMove <;> simp [hsw] at ih ⊢ <;> omega
  | step_undo hr hu ih =>
    rcases undo_move_cases hu with ⟨hnil, rfl⟩ | ⟨hne, hw, hlog⟩
    · exact ih
    · rw [hw, hlog, List.length_dropLast]
      rename_i s s2
      have hpos : 0 < s.moveLog.length := List.length_pos.mpr hne
      cases hsw : s.whiteToMove <;> simp [hsw] at ih ⊢ <;> omega

/-- C9 witness: the initial state. -/
theorem turn_parity_invariant_witness :
    initialState.whiteToMove = true ↔ initialState.moveLog.length % 2 = 0 :=
  turn_parity_invariant initialState Reachable.init

/-- C3: the initial position yields exactly 20 moves for White — 8
single pawn pushes, 8 double pawn pushes, 4 knight moves — and after
each of those 20 moves Black also has exactly 20 moves. -/
theorem initial_position_twenty_moves :
    (get_valid_moves initialState).map List.length = some 20 ∧
    ((get_valid_moves initialState).getD []).countP
      (fun m => m.piece_moved.2 == 'p' && m.start_row - m.end_row == 1) = 8 ∧
    ((get_valid_moves initialState).getD []).countP
      (fun m => m.piece_moved.2 == 'p' && m.start_row - m.end_row == 2) = 8 ∧
    ((get_valid_moves initialState).getD []).countP
      (fun m => m.piece_moved.2 == 'N') = 4 ∧
    ((get_valid_moves initialState).getD []).all
      (fun m => ((make_move initialState m).bind get_valid_moves).map
        List.length == some 20) = true := by
  decide

/-- C1: the rook generator does not stop at the first enemy square.
On the spec's own example — white rook at (4,4), enemy pawn at (4,6),
own pawn at (2,4) — the output does contain the capture (4,6) and does
exclude (2,4), but it also contains a move to (4,7), beyond the enemy
piece, because the loop never breaks after an enemy capture. -/
theorem rook_ray_continues_past_enemy :
    exampleRookBoard 4 6 = ('b', 'p') ∧
    exampleRookBoard 4 7 = emptyCell ∧
    (get_rook_moves exampleRookBoard true 4 4 []).isSome = true ∧
    ((get_rook_moves exampleRookBoard true 4 4 []).getD []).countP
      (fun m => m.end_row == 4 && m.end_col == 6) = 1 ∧
    ((get_rook_moves exampleRookBoard true 4 4 []).getD []).countP
      (fun m => m.end_row == 2 && m.end_col == 4) = 0 ∧
    ((get_rook_moves exampleRookBoard true 4 4 []).getD []).countP
      (fun m => m.end_row == 4 && m.end_col == 7) = 1 := by
  decide

/-- C4: a black knight does not pair every appended move with the
offset square that was tested.  With a black knight at (4,4) and a
white pawn on the offset square (3,2), no move to (3,2) is appended at
all, while two moves to (6,3) are appended — the (3,2) capture branch
appends a move to (6,3) instead. -/
theorem knight_capture_append_mismatch :
    exampleKnightBoard 3 2 = ('w', 'p') ∧
    (get_knight_moves exampleKnightBoard false 4 4 []).isSome = true ∧
    ((get_knight_moves exampleKnightBoard false 4 4 []).getD []).countP
      (fun m => m.end_row == 3 && m.end_col == 2) = 0 ∧
    ((get_knight_moves exampleKnightBoard false 4 4 []).getD []).countP
      (fun m => m.end_row == 6 && m.end_col == 3) = 2 := by
  decide

/-- C7: two `Move` values whose coordinates all lie in `0..7` (and
whose `move_ID` is the packing `Move.__init__` computes) compare equal
under `Move.__eq__` exactly when their coordinate quadruples agree;
the board snapshots play no part. -/
theorem move_equality_iff_coordinates (m1 m2 : Move)
    (h1 : MoveWF m1) (h2 : MoveWF m2)
    (hb1 : 0 ≤ m1.start_row ∧ m1.start_row ≤ 7 ∧
           0 ≤ m1.start_col ∧ m1.start_col ≤ 7 ∧
           0 ≤ m1.end_row ∧ m1.end_row ≤ 7 ∧
           0 ≤ m1.end_col ∧ m1.end_col ≤ 7)
    (hb2 : 0 ≤ m2.start_row ∧ m2.start_row ≤ 7 ∧
           0 ≤ m2.start_col ∧ m2.start_col ≤ 7 ∧
           0 ≤ m2.end_row ∧ m2.end_row ≤ 7 ∧
           0 ≤ m2.end_col ∧ m2.end_col ≤ 7) :
    moveEq m1 m2 = true ↔
      (m1.start_row = m2.start_row ∧ m1.start_col = m2.start_col ∧
       m1.end_row = m2.end_row ∧ m1.end_col = m2.end_col) := by
  unfold moveEq
  unfold MoveWF at h1 h2
  rw [beq_iff_eq]
  obtain ⟨a1, a2, a3, a4, a5, a6, a7, a8⟩ := hb1
  obtain ⟨c1, c2, c3, c4, c5, c6, c7, c8⟩ := hb2
  constructor
  · intro h
    rw [h1, h2] at h
    refine ⟨by omega, by omega, by omega, by omega⟩
  · rintro ⟨e1, e2, e3, e4⟩
    rw [h1, h2, e1, e2, e3, e4]

/-- C7 witness: the same coordinates (6,4)→(4,4) constructed over the
initial board and over `exampleKnightBoard` give `Move` values with
different snapshots that still compare equal. -/
theorem move_equality_iff_coordinates_witness :
    mkMove initBoard (6, 4) (4, 4) = some mvSameCoordsA ∧
    mkMove exampleKnightBoard (6, 4) (4, 4) = some mvSameCoordsB ∧
    mvSameCoordsA.piece_captured ≠ mvSameCoordsB.piece_captured ∧
    (moveEq mvSameCoordsA mvSameCoordsB = true ↔
      (mvSameCoordsA.start_row = mvSameCoordsB.start_row ∧
       mvSameCoordsA.start_col = mvSameCoordsB.start_col ∧
       mvSameCoordsA.end_row = mvSameCoordsB.end_row ∧
       mvSameCoordsA.end_col = mvSameCoordsB.end_col)) ∧
    moveEq mvSameCoordsA mvSameCoordsB = true :=
  ⟨by decide, by decide, by decide,
   move_equality_iff_coordinates mvSameCoordsA mvSameCoordsB
     (by decide) (by decide) (by decide) (by decide),
   by decide⟩

/-- C10: neither board probes nor `Move` construction validate the
`0..7` range.  The reachable state `wrapState` has a white pawn on row
0; its pawn generator probes board row `-1` without failing (the read
wraps to row 7), and `get_valid_moves` returns a move whose end row is
`-1`, outside `0..7`, whose captured-piece snapshot was silently read
from the opposite board edge. -/
theorem out_of_range_probe_wraps :
    Reachable wrapState ∧
    wrapState.board 0 0 = ('w', 'p') ∧
    pyGet wrapState.board (-1) 0 = some (wrapState.board 7 0) ∧
    (∃ l, get_valid_moves wrapState = some l ∧ wrapMove ∈ l ∧
       wrapMove.start_row = 0 ∧ wrapMove.start_col = 0 ∧
       wrapMove.end_row = -1 ∧
       ¬(0 ≤ wrapMove.end_row ∧ wrapMove.end_row ≤ 7) ∧
       wrapMove.piece_captured = wrapState.board 7 0) := by
  refine ⟨@reachable_playMoves initialState wrapState wrapSeq Reachable.init (by rfl), by decide, by decide,
    (get_valid_moves wrapState).getD [], by rfl, by decide, by decide,
    by decide, by decide, by decide, by decide⟩

lemma pyIdx_isSome {i : Int} (h0 : -8 ≤ i) (h8 : i < 8) :
    ∃ x, pyIdx i = some x := by
  unfold pyIdx
  split_ifs with h1 h2
  · exact ⟨_, rfl⟩
  · exact ⟨_, rfl⟩
  · exact absurd ⟨h0, by omega⟩ h2

lemma pyIdx_none {i : Int} (h : 8 ≤ i) : pyIdx i = none := by
  unfold pyIdx
  split_ifs with h1 h2
  · omega
  · omega
  · rfl

lemma pyGet_isSome (b : Board) (i j : Int) (h0 : -8 ≤ i) (h8 : i < 8)
    (k0 : -8 ≤ j) (k8 : j < 8) : ∃ x, pyGet b i j = some x := by
  obtain ⟨ri, hri⟩ := pyIdx_isSome h0 h8
  obtain ⟨cj, hcj⟩ := pyIdx_isSome k0 k8
  exact ⟨b ri cj, by unfold pyGet; rw [hri, hcj]; rfl⟩

lemma pyGet_none_row (b : Board) {i : Int} (j : Int) (h : 8 ≤ i) :
    pyGet b i j = none := by
  unfold pyGet
  rw [pyIdx_none h]
  rfl

lemma mkMove_isSome (b : Board) (sr sc er ec : Int)
    (hs1 : -8 ≤ sr) (hs2 : sr < 8) (hs3 : -8 ≤ sc) (hs4 : sc < 8)
    (he1 : -8 ≤ er) (he2 : er < 8) (he3 : -8 ≤ ec) (he4 : ec < 8) :
    ∃ m, mkMove b (sr, sc) (er, ec) = some m := by
  obtain ⟨pm, hpm⟩ := pyGet_isSome b sr sc hs1 hs2 hs3 hs4
  obtain ⟨pc, hpc⟩ := pyGet_isSome b er ec he1 he2 he3 he4
  exact ⟨_, by unfold mkMove; dsimp only; rw [hpm, hpc]; rfl⟩

lemma mem_bind_parts {b : Board} {o1 : Option (List Move)}
    {g : List Move → Option (List Move)} (hg : GenOK b g)
    {L1 L2 : List Move} (h1 : o1 = some L1) (h2 : g [] = some L2) (m : Move) :
    (∃ l, o1.bind g = some l ∧ m ∈ l) ↔ (m ∈ L1 ∨ m ∈ L2) := by
  subst h1
  simp only [Option.some_bind]
  rw [hg.1 L1, h2]
  simp [List.mem_append]

set_option maxHeartbeats 2000000 in
/-- C5: pawn move generation.  For a white pawn at `(r, c)` (and
mirrored for black with rows increasing, starting rank `r = 1`, enemy
color `'w'`): the single push is generated exactly when the forward
probe reads an empty square; the double push exactly when the pawn is
on its starting rank and both forward probes read empty squares — an
occupied single-push square suppresses both forward moves; a diagonal
capture exactly when the column guard holds and the probed diagonal
square reads an enemy piece.  All probes use the board's own (Python)
indexing, so a black pawn on row 7 makes the generator raise
(`none`), and every condition below is then false as well. -/
theorem pawn_move_generation (b : Board) (r c : Fin 8) (m : Move) :
    ((∃ l, get_pawn_moves b true r c [] = some l ∧ m ∈ l) ↔
      ((pyGet b ((r : Int) - 1) (c : Int) = some emptyCell ∧
          mkMove b ((r : Int), (c : Int)) ((r : Int) - 1, (c : Int)) = some m) ∨
       (r.val = 6 ∧ pyGet b ((r : Int) - 1) (c : Int) = some emptyCell ∧
          pyGet b ((r : Int) - 2) (c : Int) = some emptyCell ∧
          mkMove b ((r : Int), (c : Int)) ((r : Int) - 2, (c : Int)) = some m) ∨
       (1 ≤ c.val ∧
          (pyGet b ((r : Int) - 1) ((c : Int) - 1)).map Prod.fst = some 'b' ∧
          mkMove b ((r : Int), (c : Int)) ((r : Int) - 1, (c : Int) - 1) = some m) ∨
       (c.val + 1 ≤ 7 ∧
          (pyGet b ((r : Int) - 1) ((c : Int) + 1)).map Prod.fst = some 'b' ∧
          mkMove b ((r : Int), (c : Int)) ((r : Int) - 1, (c : Int) + 1) = some m))) ∧
    ((∃ l, get_pawn_moves b false r c [] = some l ∧ m ∈ l) ↔
      ((pyGet b ((r : Int) + 1) (c : Int) = some emptyCell ∧
          mkMove b ((r : Int), (c : Int)) ((r : Int) + 1, (c : Int)) = some m) ∨
       (r.val = 1 ∧ pyGet b ((r : Int) + 1) (c : Int) = some emptyCell ∧
          pyGet b ((r : Int) + 2) (c : Int) = some emptyCell ∧
          mkMove b ((r : Int), (c : Int)) ((r : Int) + 2, (c : Int)) = some m) ∨
       (1 ≤ c.val ∧
          (pyGet b ((r : Int) + 1) ((c : Int) - 1)).map Prod.fst = some 'w' ∧
          mkMove b ((r : Int), (c : Int)) ((r : Int) + 1, (c : Int) - 1) = some m) ∨
       (c.val + 1 ≤ 7 ∧
          (pyGet b ((r : Int) + 1) ((c : Int) + 1)).map Prod.fst = some 'w' ∧
          mkMove b ((r : Int), (c : Int)) ((r : Int) + 1, (c : Int) + 1) = some m))) := by
  have hrb := r.isLt
  have hcb := c.isLt
  constructor
  · obtain ⟨fwd, hfwd⟩ := pyGet_isSome b ((r : Int) - 1) (c : Int)
      (by omega) (by omega) (by omega) (by omega)
    obtain ⟨fwd2, hfwd2⟩ := pyGet_isSome b ((r : Int) - 2) (c : Int)
      (by omega) (by omega) (by omega) (by omega)
    obtain ⟨dl, hdl⟩ := pyGet_isSome b ((r : Int) - 1) ((c : Int) - 1)
      (by omega) (by omega) (by omega) (by omega)
    obtain ⟨m1, hm1⟩ := mkMove_isSome b (r : Int) (c : Int) ((r : Int) - 1) (c : Int)
      (by omega) (by omega) (by omega) (by omega) (by omega) (by omega) (by omega) (by omega)
    obtain ⟨m2, hm2⟩ := mkMove_isSome b (r : Int) (c : Int) ((r : Int) - 2) (c : Int)
      (by omega) (by omega) (by omega) (by omega) (by omega) (by omega) (by omega) (by omega)
    obtain ⟨m3, hm3⟩ := mkMove_isSome b (r : Int) (c : Int) ((r : Int) - 1) ((c : Int) - 1)
      (by omega) (by omega) (by omega) (by omega) (by omega) (by omega) (by omega) (by omega)
    by_cases hcr : c.val + 1 ≤ 7
    · obtain ⟨dr, hdr⟩ := pyGet_isSome b ((r : Int) - 1) ((c : Int) + 1)
        (by omega) (by omega) (by omega) (by omega)
      obtain ⟨m4, hm4⟩ := mkMove_isSome b (r : Int) (c : Int) ((r : Int) - 1) ((c : Int) + 1)
        (by omega) (by omega) (by omega) (by omega) (by omega) (by omega) (by omega) (by omega)
      simp only [get_pawn_moves, if_pos (rfl : true = true), hfwd, hfwd2, hdl, hdr,
        pushMove, hm1, hm2, hm3, hm4, Option.some_bind, Option.some_inj,
        Option.map_some', List.nil_append]
      clear hfwd hfwd2 hdl hdr hm1 hm2 hm3 hm4 hrb hcb
      split_ifs with h1 h2 h3 h4 h5 h6 h7 h8 h9 h10 h11 h12 <;>
        simp_all [List.mem_append, eq_comm]
    · simp only [get_pawn_moves, if_pos (rfl : true = true), hfwd, hfwd2, hdl,
        pushMove, hm1, hm2, hm3, Option.some_bind, Option.some_inj,
        Option.map_some', List.nil_append, if_neg hcr, eq_false hcr,
        false_and, and_false, or_false]
      clear hfwd hfwd2 hdl hm1 hm2 hm3 hrb hcb
      split_ifs with h1 h2 h3 h4 h5 h6 h7 h8 h9 h10 h11 h12 <;>
        simp_all [List.mem_append, eq_comm]
  · by_cases hr7 : r.val = 7
    · have h8 : (8 : Int) ≤ (r : Int) + 1 := by omega
      simp only [get_pawn_moves, Bool.false_eq_true, if_false,
        pyGet_none_row b ((c : Int)) h8, pyGet_none_row b ((c : Int) - 1) h8,
        pyGet_none_row b ((c : Int) + 1) h8, Option.none_bind, Option.map_none']
      simp
    · obtain ⟨fwd, hfwd⟩ := pyGet_isSome b ((r : Int) + 1) (c : Int)
        (by omega) (by omega) (by omega) (by omega)
      obtain ⟨dl, hdl⟩ := pyGet_isSome b ((r : Int) + 1) ((c : Int) - 1)
        (by omega) (by omega) (by omega) (by omega)
      obtain ⟨m1, hm1⟩ := mkMove_isSome b (r : Int) (c : Int) ((r : Int) + 1) (c : Int)
        (by omega) (by omega) (by omega) (by omega) (by omega) (by omega) (by omega) (by omega)
      obtain ⟨m3, hm3⟩ := mkMove_isSome b (r : Int) (c : Int) ((r : Int) + 1) ((c : Int) - 1)
        (by omega) (by omega) (by omega) (by omega) (by omega) (by omega) (by omega) (by omega)
      by_cases hr1 : r.val = 1
      · obtain ⟨fwd2, hfwd2⟩ := pyGet_isSome b ((r : Int) + 2) (c : Int)
          (by omega) (by omega) (by omega) (by omega)
        obtain ⟨m2, hm2⟩ := mkMove_isSome b (r : Int) (c : Int) ((r : Int) + 2) (c : Int)
          (by omega) (by omega) (by omega) (by omega) (by omega) (by omega) (by omega) (by omega)
        by_cases hcr : c.val + 1 ≤ 7
        · obtain ⟨dr, hdr⟩ := pyGet_isSome b ((r : Int) + 1) ((c : Int) + 1)
            (by omega) (by omega) (by omega) (by omega)
          obtain ⟨m4, hm4⟩ := mkMove_isSome b (r : Int) (c : Int) ((r : Int) + 1) ((c : Int) + 1)
            (by omega) (by omega) (by omega) (by omega) (by omega) (by omega) (by omega) (by omega)
          simp only [get_pawn_moves, Bool.false_eq_true, if_false, hfwd, hfwd2, hdl, hdr,
            pushMove, hm1, hm2, hm3, hm4, Option.some_bind, Option.some_inj,
            Option.map_some', List.nil_append]
          clear hfwd hfwd2 hdl hdr hm1 hm2 hm3 hm4 hrb hcb
          split_ifs with h1 h2 h3 h4 h5 h6 h7 h8 h9 h10 h11 h12 <;>
            simp_all [List.mem_append, eq_comm]
        · simp only [get_pawn_moves, Bool.false_eq_true, if_false, hfwd, hfwd2, hdl,
            pushMove, hm1, hm2, hm3, Option.some_bind, Option.some_inj,
            Option.map_some', List.nil_append, if_neg hcr, eq_false hcr,
            false_and, and_false, or_false]
          clear hfwd hfwd2 hdl hm1 hm2 hm3 hrb hcb
          split_ifs with h1 h2 h3 h4 h5 h6 h7 h8 h9 h10 h11 h12 <;>
            simp_all [List.mem_append, eq_comm]
      · by_cases hcr : c.val + 1 ≤ 7
        · obtain ⟨dr, hdr⟩ := pyGet_isSome b ((r : Int) + 1) ((c : Int) + 1)
            (by omega) (by omega) (by omega) (by omega)
          obtain ⟨m4, hm4⟩ := mkMove_isSome b (r : Int) (c : Int) ((r : Int) + 1) ((c : Int) + 1)
            (by omega) (by omega) (by omega) (by omega) (by omega) (by omega) (by omega) (by omega)
          simp only [get_pawn_moves, Bool.false_eq_true, if_false, hfwd, hdl, hdr,
            pushMove, hm1, hm3, hm4, Option.some_bind, Option.some_inj,
            Option.map_some', List.nil_append, if_neg hr1, eq_false hr1,
            false_and, and_false, or_false]
          clear hfwd hdl hdr hm1 hm3 hm4 hrb hcb
          split_ifs with h1 h2 h3 h4 h5 h6 h7 h8 h9 h10 h11 h12 <;>
            simp_all [List.mem_append, eq_comm]
        · simp only [get_pawn_moves, Bool.false_eq_true, if_false, hfwd, hdl,
            pushMove, hm1, hm3, Option.some_bind, Option.some_inj,
            Option.map_some', List.nil_append, if_neg hr1, eq_false hr1,
            if_neg hcr, eq_false hcr, false_and, and_false, or_false]
          clear hfwd hdl hm1 hm3 hrb hcb
          split_ifs with h1 h2 h3 h4 h5 h6 h7 h8 h9 h10 h11 h12 <;>
            simp_all [List.mem_append, eq_comm]

end ChessEngine
